import Mathlib

/-! LC-3 virtual machine (`vm/cpu.go`): embedding and verified properties

The Go `CPU` struct is embedded as a Lean structure whose machine words are
natural numbers; every `uint16` operation that can overflow is followed by an
explicit `% 65536`; `int` arithmetic wraps at 64 bits.  A Go runtime panic
(register index out of range, negative shift count) is the result `none`.  The `for cpu.isRunning` loop of `Execute`
is run with a fuel bound on the number of iterations.
-/

namespace LC3

/-! ## Constants of `cpu.go` -/

def R_R0 : Nat := 0
def R_R1 : Nat := 1
def R_R2 : Nat := 2
def R_R3 : Nat := 3
def R_R4 : Nat := 4
def R_R5 : Nat := 5
def R_R6 : Nat := 6
def R_R7 : Nat := 7
def R_PC : Nat := 8
def R_COND : Nat := 9
def R_COUNT : Nat := 10

def OP_BR : Nat := 0
def OP_ADD : Nat := 1
def OP_SUB : Nat := 2
def OP_LD : Nat := 3
def OP_ST : Nat := 4
def OP_JSR : Nat := 5
def OP_AND : Nat := 6
def OP_LDR : Nat := 7
def OP_STR : Nat := 8
def OP_RTI : Nat := 9
def OP_NOT : Nat := 10
def OP_LDI : Nat := 11
def OP_STI : Nat := 12
def OP_JMP : Nat := 13
def OP_RES : Nat := 14
def OP_LEA : Nat := 15
def OP_TRAP : Nat := 16

def FL_POS : Nat := 1
def FL_ZRO : Nat := 2
def FL_NEG : Nat := 4

def TRAP_GETC : Nat := 0x20
def TRAP_OUT : Nat := 0x21
def TRAP_PUTS : Nat := 0x22
def TRAP_IN : Nat := 0x23
def TRAP_PUTSP : Nat := 0x24
def TRAP_HALT : Nat := 0x25

/-! ## Machine state -/

/-- A record written by one of the two `log.Printf` calls of `cpu.go`. -/
inductive Diag where
  | opNotImplemented (op instr : Nat)
  | trapNotImplemented (instr : Nat)
  deriving DecidableEq, Repr

/-- The `CPU` struct.  `registers` has the `R_COUNT` slots `0..9`, `memory`
the cells `0..65535`; `diag` is the log sink the `log.Printf` calls append to. -/
structure CPU where
  registers : Nat → Nat
  memory : Nat → Nat
  currInstruction : Nat
  currentOperation : Nat
  isRunning : Bool
  pc : Nat
  cond : Nat
  diag : List Diag

/-- Every word of the state fits its Go type `uint16`. -/
def CPU.WF (cpu : CPU) : Prop :=
  (∀ i, cpu.registers i < 65536) ∧ (∀ a, cpu.memory a < 65536) ∧
  cpu.currInstruction < 65536 ∧ cpu.currentOperation < 65536 ∧
  cpu.pc < 65536 ∧ cpu.cond < 65536

/-- Assignment `regs[i] = v` on an array seen as a function. -/
def setSlot (regs : Nat → Nat) (i v : Nat) : Nat → Nat :=
  fun j => if j = i then v else regs j

/-- Read `cpu.registers[i]` with a run-time index; out of range panics. -/
def regGet (cpu : CPU) (i : Nat) : Option Nat :=
  if i < R_COUNT then some (cpu.registers i) else none

/-- Write `cpu.registers[i] = v` with a run-time index; out of range panics. -/
def regSet (cpu : CPU) (i v : Nat) : Option CPU :=
  if i < R_COUNT then some { cpu with registers := setSlot cpu.registers i v } else none

/-- Constructor `NewCPU`: the zero value of the struct with `pc = 0x3000`. -/
def NewCPU : CPU :=
  { registers := fun _ => 0
    memory := fun _ => 0
    currInstruction := 0
    currentOperation := 0
    isRunning := false
    pc := 0x3000
    cond := 0
    diag := [] }

/-- Method `CPU.Reset`. -/
def Reset (cpu : CPU) : CPU :=
  { cpu with
    registers := fun _ => 0
    currInstruction := 0
    currentOperation := 0
    isRunning := false
    pc := 0x3000 }

/-- Method `CPU.Stop`. -/
def Stop (cpu : CPU) : CPU :=
  { cpu with isRunning := false }

/-- The value of an `int` expression in Go, where `int` is 64 bits wide:
the mathematical result wrapped to two's complement. -/
def wrapInt (v : Int) : Int :=
  (v + 9223372036854775808) % 18446744073709551616 - 9223372036854775808

/-- Function `sign_extend(x uint16, bit_count int) uint16`.  The subtraction
`bit_count-1` is `int` arithmetic and wraps; a shift by a negative count is
a run-time panic, a shift by a count of 16 or more gives 0; the constant
`0xFFFF` takes the type `uint16` of `x`, so the left shift is truncated to
16 bits. -/
def sign_extend (x : Nat) (bit_count : Int) : Option Nat :=
  if wrapInt (bit_count - 1) < 0 then none
  else if (x >>> (wrapInt (bit_count - 1)).toNat) &&& 1 ≠ 0 then
    if bit_count < 0 then none
    else some (x ||| ((0xFFFF <<< bit_count.toNat) % 65536))
  else some x

/-- Method `CPU.updateFlags`. -/
def updateFlags (cpu : CPU) (regIndex : Nat) : Option CPU :=
  match regGet cpu regIndex with
  | none => none
  | some v =>
    if v = 0 then some { cpu with cond := FL_ZRO }
    else if v >>> 15 ≠ 0 then some { cpu with cond := FL_NEG }
    else some { cpu with cond := FL_POS }

/-! ## Instruction handlers -/

/-- Method `CPU.branch`. -/
def branch (cpu : CPU) : Option CPU :=
  match sign_extend (cpu.currInstruction &&& 0x1ff) 9 with
  | none => none
  | some pcOffset =>
    let condFlag := (cpu.currInstruction >>> 9) &&& 0x7
    if (condFlag &&& cpu.registers R_COND) ≠ 0 then
      some { cpu with
        registers := setSlot cpu.registers R_PC ((cpu.registers R_PC + pcOffset) % 65536) }
    else some cpu

/-- Method `CPU.add`. -/
def add (cpu : CPU) : Option CPU :=
  let r0 := (cpu.currInstruction >>> 9) &&& 0x7
  let r1 := (cpu.currInstruction >>> 6) &&& 0x7
  let immFlag := (cpu.currInstruction >>> 5) &&& 0x1
  if immFlag ≠ 0 then
    match sign_extend (cpu.currInstruction &&& 0x001F) 5 with
    | none => none
    | some imm5 =>
      match regGet cpu r1 with
      | none => none
      | some a =>
        match regSet cpu r0 ((a + imm5) % 65536) with
        | none => none
        | some cpu1 => updateFlags cpu1 r0
  else
    let r2 := cpu.currInstruction &&& 0x7
    match regGet cpu r1 with
    | none => none
    | some a =>
      match regGet cpu r2 with
      | none => none
      | some b =>
        match regSet cpu r0 ((a + b) % 65536) with
        | none => none
        | some cpu1 => updateFlags cpu1 r0

/-- Method `CPU.sub` (empty body). -/
def sub (cpu : CPU) : Option CPU := some cpu
/-- Method `CPU.load` (empty body). -/
def load (cpu : CPU) : Option CPU := some cpu
/-- Method `CPU.store` (empty body). -/
def store (cpu : CPU) : Option CPU := some cpu
/-- Method `CPU.jumpRegister` (empty body). -/
def jumpRegister (cpu : CPU) : Option CPU := some cpu
/-- Method `CPU.bitwiseAnd` (empty body). -/
def bitwiseAnd (cpu : CPU) : Option CPU := some cpu
/-- Method `CPU.loadRegister` (empty body). -/
def loadRegister (cpu : CPU) : Option CPU := some cpu
/-- Method `CPU.storeRegister` (empty body). -/
def storeRegister (cpu : CPU) : Option CPU := some cpu
/-- Method `CPU.bitwiseNot` (empty body). -/
def bitwiseNot (cpu : CPU) : Option CPU := some cpu
/-- Method `CPU.loadIndirect` (empty body). -/
def loadIndirect (cpu : CPU) : Option CPU := some cpu
/-- Method `CPU.storeIndirect` (empty body). -/
def storeIndirect (cpu : CPU) : Option CPU := some cpu
/-- Method `CPU.jump` (empty body). -/
def jump (cpu : CPU) : Option CPU := some cpu
/-- Method `CPU.loadEffectiveAddress` (empty body). -/
def loadEffectiveAddress (cpu : CPU) : Option CPU := some cpu

/-- Method `CPU.trapGetc` (empty body). -/
def trapGetc (cpu : CPU) : Option CPU := some cpu
/-- Method `CPU.trapOut` (empty body). -/
def trapOut (cpu : CPU) : Option CPU := some cpu
/-- Method `CPU.trapPuts` (empty body). -/
def trapPuts (cpu : CPU) : Option CPU := some cpu
/-- Method `CPU.trapIn` (empty body). -/
def trapIn (cpu : CPU) : Option CPU := some cpu
/-- Method `CPU.trapPutsp` (empty body). -/
def trapPutsp (cpu : CPU) : Option CPU := some cpu
/-- Method `CPU.trapHalt`. -/
def trapHalt (cpu : CPU) : Option CPU := some (Stop cpu)

/-- Method `CPU.traps`: the switch on the low byte of the instruction. -/
def traps (cpu : CPU) : Option CPU :=
  let v := cpu.currInstruction &&& 0xFF
  if v = TRAP_GETC then trapGetc cpu
  else if v = TRAP_OUT then trapOut cpu
  else if v = TRAP_PUTS then trapPuts cpu
  else if v = TRAP_IN then trapIn cpu
  else if v = TRAP_PUTSP then trapPutsp cpu
  else if v = TRAP_HALT then trapHalt cpu
  else some { cpu with diag := cpu.diag ++ [Diag.trapNotImplemented cpu.currInstruction] }

/-! ## The `Execute` loop -/

/-- The arm of the `switch cpu.currentOperation` of `Execute` that is taken. -/
inductive Handler where
  | branch | add | sub | load | store | jumpRegister | bitwiseAnd | loadRegister
  | storeRegister | bitwiseNot | loadIndirect | storeIndirect | jump
  | loadEffectiveAddress
  | caseRES
  | caseRTI
  | traps
  | default
  deriving DecidableEq, Repr

/-- The `case` labels of the switch of `Execute`, in source order. -/
def selectHandler (op : Nat) : Handler :=
  if op = OP_BR then Handler.branch
  else if op = OP_ADD then Handler.add
  else if op = OP_SUB then Handler.sub
  else if op = OP_LD then Handler.load
  else if op = OP_ST then Handler.store
  else if op = OP_JSR then Handler.jumpRegister
  else if op = OP_AND then Handler.bitwiseAnd
  else if op = OP_LDR then Handler.loadRegister
  else if op = OP_STR then Handler.storeRegister
  else if op = OP_NOT then Handler.bitwiseNot
  else if op = OP_LDI then Handler.loadIndirect
  else if op = OP_STI then Handler.storeIndirect
  else if op = OP_JMP then Handler.jump
  else if op = OP_LEA then Handler.loadEffectiveAddress
  else if op = OP_RES then Handler.caseRES
  else if op = OP_RTI then Handler.caseRTI
  else if op = OP_TRAP then Handler.traps
  else Handler.default

/-- The body of the selected arm. -/
def runHandler (h : Handler) (cpu : CPU) : Option CPU :=
  match h with
  | Handler.branch => branch cpu
  | Handler.add => add cpu
  | Handler.sub => sub cpu
  | Handler.load => load cpu
  | Handler.store => store cpu
  | Handler.jumpRegister => jumpRegister cpu
  | Handler.bitwiseAnd => bitwiseAnd cpu
  | Handler.loadRegister => loadRegister cpu
  | Handler.storeRegister => storeRegister cpu
  | Handler.bitwiseNot => bitwiseNot cpu
  | Handler.loadIndirect => loadIndirect cpu
  | Handler.storeIndirect => storeIndirect cpu
  | Handler.jump => jump cpu
  | Handler.loadEffectiveAddress => loadEffectiveAddress cpu
  | Handler.caseRES => some cpu
  | Handler.caseRTI => some cpu
  | Handler.traps => traps cpu
  | Handler.default =>
    some { cpu with
      diag := cpu.diag ++ [Diag.opNotImplemented cpu.currentOperation cpu.currInstruction] }

/-- The fetch and decode statements at the head of the loop body:
`currInstruction = memory[registers[R_PC]]`, `pc++`,
`currentOperation = currInstruction >> 12`. -/
def fetch (cpu : CPU) : CPU :=
  let instr := cpu.memory (cpu.registers R_PC)
  { cpu with
    currInstruction := instr
    pc := (cpu.pc + 1) % 65536
    currentOperation := instr >>> 12 }

/-- One iteration of the `for cpu.isRunning` loop of `Execute`. -/
def iteration (cpu : CPU) : Option CPU :=
  let cpu1 := fetch cpu
  runHandler (selectHandler cpu1.currentOperation) cpu1

/-- The two statements of `Execute` before the loop. -/
def executeEntry (cpu : CPU) : CPU :=
  { cpu with registers := setSlot cpu.registers R_PC cpu.pc, isRunning := true }

/-- How a bounded run of the loop ends. -/
inductive Outcome where
  | returned (cpu : CPU)
  | panicked
  | stillRunning (cpu : CPU)

/-- The loop `for cpu.isRunning { ... }`, at most `fuel` iterations. -/
def loop : Nat → CPU → Outcome
  | fuel, cpu =>
    if cpu.isRunning = false then Outcome.returned cpu
    else
      match fuel with
      | 0 => Outcome.stillRunning cpu
      | n + 1 =>
        match iteration cpu with
        | none => Outcome.panicked
        | some cpu1 => loop n cpu1

/-- Method `CPU.Execute`, at most `fuel` loop iterations. -/
def Execute (fuel : Nat) (cpu : CPU) : Outcome :=
  loop fuel (executeEntry cpu)

/-- The state with its memory replaced (the program image is in memory before
`Execute` is called). -/
def withMemory (cpu : CPU) (m : Nat → Nat) : CPU :=
  { cpu with memory := m }

/-- The state with one general register preloaded. -/
def withRegister (cpu : CPU) (i v : Nat) : CPU :=
  { cpu with registers := setSlot cpu.registers i v }

/-- The state with the current-instruction cache set to `w`. -/
def withInstr (cpu : CPU) (w : Nat) : CPU :=
  { cpu with currInstruction := w }

/-- A 16-bit (or narrower) word read as a two's-complement integer of
`bits` bits. -/
def toSigned (bits : Nat) (v : Nat) : Int :=
  if v < 2 ^ (bits - 1) then (v : Int) else (v : Int) - 2 ^ bits

/-! ## Programs and tables used by the statements -/

/-- The memory image whose only non-zero cell is `memory[0x3000] = 0xF025`
(`TRAP 0x25`, HALT). -/
def haltImage : Nat → Nat :=
  fun a => if a = 0x3000 then 0xF025 else 0

/-- The memory image `memory[0x3000] = 0x1021` (`ADD R0, R0, #1`),
`memory[0x3001] = 0xF025` (HALT). -/
def addHaltImage : Nat → Nat :=
  fun a => if a = 0x3000 then 0x1021 else if a = 0x3001 then 0xF025 else 0

/-- The instruction table of the specification (section 4.5): the handler the
high nibble of the fetched word stands for. -/
def specHandler (nibble : Nat) : Handler :=
  match nibble with
  | 0x0 => Handler.branch
  | 0x1 => Handler.add
  | 0x2 => Handler.load
  | 0x3 => Handler.store
  | 0x4 => Handler.jumpRegister
  | 0x5 => Handler.bitwiseAnd
  | 0x6 => Handler.loadRegister
  | 0x7 => Handler.storeRegister
  | 0x8 => Handler.caseRTI
  | 0x9 => Handler.bitwiseNot
  | 0xA => Handler.loadIndirect
  | 0xB => Handler.storeIndirect
  | 0xC => Handler.jump
  | 0xD => Handler.caseRES
  | 0xE => Handler.loadEffectiveAddress
  | 0xF => Handler.traps
  | _ => Handler.default

/-- The loop invariant of a run that keeps fetching `0xF025` at `0x3000`. -/
def HaltFetch (cpu : CPU) : Prop :=
  cpu.memory 0x3000 = 0xF025 ∧ cpu.registers R_PC = 0x3000 ∧ cpu.isRunning = true

/-- The state of the wrap-around example: `ADD R1, R1, R2` (word `0x1242`) at `0x3000`,
`R1 = 0xFFFF`, `R2 = 3`. -/
def addWrapState : CPU :=
  withRegister (withRegister
    (executeEntry (withMemory NewCPU (fun a => if a = 0x3000 then 0x1242 else 0)))
    R_R1 0xFFFF) R_R2 3

/-- The state of scenario S1: `ADD R1, R0, #5` (word `0x1225`) at `0x3000`, `R0 = 10`. -/
def addImmState : CPU :=
  withRegister
    (executeEntry (withMemory NewCPU
      (fun a => if a = 0x3000 then 0x1225 else if a = 0x3001 then 0xF025 else 0)))
    R_R0 10

/-- The state of scenario S2: `ADD R1, R1, #-1` (word `0x127F`) at `0x3000`, `R1 = 0`. -/
def addNegImmState : CPU :=
  withRegister
    (executeEntry (withMemory NewCPU
      (fun a => if a = 0x3000 then 0x127F else if a = 0x3001 then 0xF025 else 0)))
    R_R1 0

/-- A running machine about to fetch `0x8000` (high nibble `0x8`, RTI in the
instruction table) at `0x3000`. -/
def rtiState : CPU :=
  executeEntry (withMemory NewCPU (fun a => if a = 0x3000 then 0x8000 else 0))

/-- A running new machine with `R0 = 0x1234`, `STI R0, #2` (`0xB002`) at
`0x3000`, `LDI R1, #2` (`0xA202`) at `0x3001` and the pointer `0x4000` in
the cell `0x3003`. -/
def indirectState : CPU :=
  withRegister
    (executeEntry (withMemory NewCPU
      (fun a => if a = 0x3000 then 0xB002 else if a = 0x3001 then 0xA202
        else if a = 0x3003 then 0x4000 else 0)))
    R_R0 0x1234

/-- A running new machine with `JSR +2` (`0x4802`, bit 11 set) at `0x3000`. -/
def jsrState : CPU :=
  executeEntry (withMemory NewCPU (fun a => if a = 0x3000 then 0x4802 else 0))

/-- A running new machine with `LEA R1, #2` (`0xE202`) at `0x3000`, the
value 5 in cell 0 and `0x1234` in cells `0x3002` and `0x3003`. -/
def leaState : CPU :=
  executeEntry (withMemory NewCPU
    (fun a => if a = 0x3000 then 0xE202 else if a = 0 then 5
      else if a = 0x3002 then 0x1234 else if a = 0x3003 then 0x1234 else 0))

/-! ## Basic lemmas -/

theorem and_seven_lt (x : Nat) : x &&& 7 < 8 := by
  have h : x &&& 7 ≤ 7 := Nat.and_le_right
  omega

theorem and_seven_lt_count (x : Nat) : x &&& 7 < R_COUNT := by
  have h := and_seven_lt x
  unfold R_COUNT
  omega

theorem iteration_haltFetch (cpu : CPU) (h : HaltFetch cpu) :
    ∃ cpu1, iteration cpu = some cpu1 ∧ HaltFetch cpu1 := by
  obtain ⟨hm, hpc, hrun⟩ := h
  refine ⟨fetch cpu, ?_, ?_⟩
  · have hop : (fetch cpu).currentOperation = 15 := by
      simp [fetch, hpc, hm]
    simp [iteration, hop, selectHandler, runHandler, loadEffectiveAddress, OP_BR, OP_ADD,
      OP_SUB, OP_LD, OP_ST, OP_JSR, OP_AND, OP_LDR, OP_STR, OP_NOT, OP_LDI, OP_STI, OP_JMP,
      OP_LEA]
  · exact ⟨hm, hpc, hrun⟩

theorem loop_haltFetch (fuel : Nat) :
    ∀ cpu, HaltFetch cpu →
      ∃ cpu1, loop fuel cpu = Outcome.stillRunning cpu1 ∧ cpu1.isRunning = true := by
  induction fuel with
  | zero =>
    intro cpu h
    refine ⟨cpu, ?_, h.2.2⟩
    unfold loop
    simp [h.2.2]
  | succ n ih =>
    intro cpu h
    obtain ⟨cpu1, hit, hinv⟩ := iteration_haltFetch cpu h
    obtain ⟨cpu2, hl, hr⟩ := ih cpu1 hinv
    refine ⟨cpu2, ?_, hr⟩
    unfold loop
    simp [h.2.2, hit, hl]

theorem lor_high_mask (n k x : Nat) (hx : x < 2 ^ n) : x ||| 2 ^ n * k = x + 2 ^ n * k := by
  rw [Nat.lor_comm, ← Nat.mul_add_lt_is_or hx k, Nat.add_comm]

theorem sign_bit_test (x k : Nat) : ((x >>> k) &&& 1 ≠ 0) ↔ x.testBit k = true := by
  rw [Nat.testBit_to_div_mod, Nat.shiftRight_eq_div_pow, Nat.and_one_is_mod]
  simp only [decide_eq_true_eq]
  omega

theorem wrapInt_of_range (v : Int) (h1 : -9223372036854775808 ≤ v)
    (h2 : v < 9223372036854775808) : wrapInt v = v := by
  unfold wrapInt
  omega

/-- On a bit count in `1..2^63-1` the function does not panic and takes the
branch chosen by bit `n-1` of `x`. -/
theorem sign_extend_unfold (x n : Nat) (hn : 1 ≤ n) (hn2 : n < 9223372036854775808) :
    sign_extend x (n : Int) =
      some (if x.testBit (n - 1) = true then x ||| ((0xFFFF <<< n) % 65536) else x) := by
  have hw : wrapInt ((n : Int) - 1) = (n : Int) - 1 := wrapInt_of_range _ (by omega) (by omega)
  have h1 : ¬ ((n : Int) - 1 < 0) := by omega
  have h2 : ((n : Int) - 1).toNat = n - 1 := by omega
  have h3 : (n : Int).toNat = n := by omega
  have h4 : ¬ ((n : Int) < 0) := by omega
  unfold sign_extend
  rw [hw, if_neg h1, h2, h3, if_neg h4]
  by_cases hb : x.testBit (n - 1) = true
  · rw [if_pos ((sign_bit_test x (n - 1)).mpr hb), if_pos hb]
  · rw [if_neg (fun h => hb ((sign_bit_test x (n - 1)).mp h)), if_neg hb]

theorem testBit_top (n x : Nat) (hn : 1 ≤ n) (hx : x < 2 ^ n) :
    x.testBit (n - 1) = true ↔ ¬ x < 2 ^ (n - 1) := by
  have hpow : 2 ^ n = 2 * 2 ^ (n - 1) := by
    have h : n = (n - 1) + 1 := by omega
    conv_lhs => rw [h, Nat.pow_succ]
    omega
  have hpos : 0 < 2 ^ (n - 1) := Nat.two_pow_pos (n - 1)
  rw [Nat.testBit_to_div_mod]
  simp only [decide_eq_true_eq]
  constructor
  · intro h hlt
    rw [Nat.div_eq_of_lt hlt] at h
    cases h
  · intro h
    have hge : 2 ^ (n - 1) ≤ x := Nat.le_of_not_lt h
    have hd : x / 2 ^ (n - 1) = 1 := by
      apply Nat.div_eq_of_lt_le
      · omega
      · omega
    rw [hd]

theorem sign_extend_of_lt (n x : Nat) (hn : n = 5 ∨ n = 6 ∨ n = 9 ∨ n = 11) (hx : x < 2 ^ n) :
    sign_extend x (n : Int) = some (if x < 2 ^ (n - 1) then x else x + (65536 - 2 ^ n)) := by
  have hn1 : 1 ≤ n := by omega
  rw [sign_extend_unfold x n hn1 (by omega)]
  have htop := testBit_top n x hn1 hx
  by_cases hlt : x < 2 ^ (n - 1)
  · have hb : ¬ x.testBit (n - 1) = true := fun h => (htop.mp h) hlt
    rw [if_neg hb, if_pos hlt]
  · rw [if_pos (htop.mpr hlt), if_neg hlt]
    congr 1
    rcases hn with rfl | rfl | rfl | rfl
    · exact lor_high_mask 5 2047 x hx
    · exact lor_high_mask 6 1023 x hx
    · exact lor_high_mask 9 127 x hx
    · exact lor_high_mask 11 31 x hx

theorem sign_extend_five (x : Nat) (hx : x < 32) :
    sign_extend x 5 = some (if x < 16 then x else x + 65504) := by
  have h := sign_extend_of_lt 5 x (Or.inl rfl) (by simpa using hx)
  simpa using h

theorem sign_extend_nine (x : Nat) (hx : x < 512) :
    sign_extend x 9 = some (if x < 256 then x else x + 65024) := by
  have h := sign_extend_of_lt 9 x (Or.inr (Or.inr (Or.inl rfl))) (by simpa using hx)
  simpa using h

theorem and_mask_lt (x k : Nat) : x &&& (2 ^ k - 1) < 2 ^ k := by
  rw [Nat.and_pow_two_sub_one_eq_mod]
  exact Nat.mod_lt _ (by positivity)

theorem updateFlags_setSlot (cpu : CPU) (i v : Nat) (hi : i < R_COUNT) :
    updateFlags { cpu with registers := setSlot cpu.registers i v } i =
      some { cpu with
        registers := setSlot cpu.registers i v
        cond := if v = 0 then FL_ZRO else if v >>> 15 ≠ 0 then FL_NEG else FL_POS } := by
  simp only [updateFlags, regGet, hi, if_true, setSlot]
  split <;> [rfl; split <;> rfl]

theorem add_register_mode (cpu : CPU) (h : (cpu.currInstruction >>> 5) &&& 1 = 0) :
    add cpu = some { cpu with
      registers := setSlot cpu.registers ((cpu.currInstruction >>> 9) &&& 7)
        ((cpu.registers ((cpu.currInstruction >>> 6) &&& 7) +
          cpu.registers (cpu.currInstruction &&& 7)) % 65536)
      cond :=
        if (cpu.registers ((cpu.currInstruction >>> 6) &&& 7) +
          cpu.registers (cpu.currInstruction &&& 7)) % 65536 = 0 then FL_ZRO
        else if ((cpu.registers ((cpu.currInstruction >>> 6) &&& 7) +
          cpu.registers (cpu.currInstruction &&& 7)) % 65536) >>> 15 ≠ 0 then FL_NEG
        else FL_POS } := by
  have h0 := and_seven_lt_count (cpu.currInstruction >>> 9)
  have h1 := and_seven_lt_count (cpu.currInstruction >>> 6)
  have h2 := and_seven_lt_count cpu.currInstruction
  unfold add
  simp only [h, regGet, regSet, h0, h1, h2, if_true, ne_eq, not_true_eq_false, if_false]
  exact updateFlags_setSlot cpu _ _ h0

theorem add_immediate_mode (cpu : CPU) (h : (cpu.currInstruction >>> 5) &&& 1 ≠ 0)
    (imm5 : Nat) (himm : sign_extend (cpu.currInstruction &&& 0x1F) 5 = some imm5) :
    add cpu = some { cpu with
      registers := setSlot cpu.registers ((cpu.currInstruction >>> 9) &&& 7)
        ((cpu.registers ((cpu.currInstruction >>> 6) &&& 7) + imm5) % 65536)
      cond :=
        if (cpu.registers ((cpu.currInstruction >>> 6) &&& 7) + imm5) % 65536 = 0 then FL_ZRO
        else if ((cpu.registers ((cpu.currInstruction >>> 6) &&& 7) + imm5) % 65536) >>> 15 ≠ 0
          then FL_NEG
        else FL_POS } := by
  have h0 := and_seven_lt_count (cpu.currInstruction >>> 9)
  have h1 := and_seven_lt_count (cpu.currInstruction >>> 6)
  unfold add
  simp only [h, himm, regGet, regSet, h0, h1, if_true, ne_eq, not_false_eq_true]
  exact updateFlags_setSlot cpu _ _ h0

theorem iteration_of_add (cpu : CPU) (h : cpu.memory (cpu.registers R_PC) >>> 12 = 1) :
    iteration cpu = add (fetch cpu) := by
  have hop : (fetch cpu).currentOperation = 1 := by
    simp [fetch, h]
  simp [iteration, hop, selectHandler, runHandler, OP_BR, OP_ADD]

theorem sign_extend_imm5 (w : Nat) :
    sign_extend (w &&& 0x1F) 5 =
      some (if w &&& 0x1F < 16 then w &&& 0x1F else (w &&& 0x1F) + 65504) :=
  sign_extend_five _ (and_mask_lt w 5)

theorem add_total (cpu : CPU) :
    ∃ v, v < 65536 ∧
      add cpu = some { cpu with
        registers := setSlot cpu.registers ((cpu.currInstruction >>> 9) &&& 7) v
        cond := if v = 0 then FL_ZRO else if v >>> 15 ≠ 0 then FL_NEG else FL_POS } := by
  by_cases h : (cpu.currInstruction >>> 5) &&& 1 = 0
  · exact ⟨_, Nat.mod_lt _ (by decide), add_register_mode cpu h⟩
  · exact ⟨_, Nat.mod_lt _ (by decide), add_immediate_mode cpu h _ (sign_extend_imm5 _)⟩

theorem shift15_ne_zero_iff (v : Nat) (hv : v < 65536) :
    v >>> 15 ≠ 0 ↔ v.testBit 15 = true := by
  rw [Nat.testBit_to_div_mod, Nat.shiftRight_eq_div_pow]
  simp only [decide_eq_true_eq]
  omega

theorem branch_total (cpu : CPU) :
    ∃ off, off < 65536 ∧ sign_extend (cpu.currInstruction &&& 0x1ff) 9 = some off ∧
      branch cpu =
        some (if ((cpu.currInstruction >>> 9) &&& 0x7) &&& cpu.registers R_COND ≠ 0 then
          { cpu with
            registers := setSlot cpu.registers R_PC ((cpu.registers R_PC + off) % 65536) }
          else cpu) := by
  have hlt : cpu.currInstruction &&& 0x1ff < 512 := and_mask_lt cpu.currInstruction 9
  have hs := sign_extend_nine _ hlt
  refine ⟨_, ?_, hs, ?_⟩
  · split <;> omega
  · unfold branch
    rw [hs]
    simp only
    split <;> rfl

theorem branch_not_taken (cpu : CPU) (h : cpu.registers R_COND = 0) : branch cpu = some cpu := by
  obtain ⟨off, -, -, hb⟩ := branch_total cpu
  rw [hb, h]
  simp

theorem traps_frame (cpu : CPU) :
    ∃ cpu1, traps cpu = some cpu1 ∧ cpu1.cond = cpu.cond ∧ cpu1.memory = cpu.memory ∧
      cpu1.registers = cpu.registers ∧ cpu1.pc = cpu.pc := by
  unfold traps
  simp only [trapGetc, trapOut, trapPuts, trapIn, trapPutsp, trapHalt, Stop]
  repeat' split
  all_goals exact ⟨_, rfl, rfl, rfl, rfl, rfl⟩

/-- Frame of every arm of the switch other than `add`. -/
theorem runHandler_frame (h : Handler) (cpu : CPU) (hne : h ≠ Handler.add) :
    ∃ cpu1, runHandler h cpu = some cpu1 ∧ cpu1.cond = cpu.cond ∧ cpu1.memory = cpu.memory ∧
      (∀ i, i ≠ R_PC → cpu1.registers i = cpu.registers i) ∧ cpu1.pc = cpu.pc := by
  cases h
  case add => exact absurd rfl hne
  case branch =>
    obtain ⟨off, -, -, hb⟩ := branch_total cpu
    refine ⟨_, hb, ?_⟩
    split
    · refine ⟨rfl, rfl, ?_, rfl⟩
      intro i hi
      simp [setSlot, hi]
    · exact ⟨rfl, rfl, fun _ _ => rfl, rfl⟩
  case traps =>
    obtain ⟨cpu1, ht, hc, hm, hr, hp⟩ := traps_frame cpu
    exact ⟨cpu1, ht, hc, hm, fun i _ => by rw [hr], hp⟩
  all_goals exact ⟨_, rfl, rfl, rfl, fun _ _ => rfl, rfl⟩

theorem selectHandler_default (op : Nat) (h : 17 ≤ op) :
    selectHandler op = Handler.default := by
  have e : ∀ k, k < 17 → (op = k) = False := fun k hk => eq_false (by omega)
  simp only [selectHandler, OP_BR, OP_ADD, OP_SUB, OP_LD, OP_ST, OP_JSR, OP_AND, OP_LDR,
    OP_STR, OP_NOT, OP_LDI, OP_STI, OP_JMP, OP_LEA, OP_RES, OP_RTI, OP_TRAP,
    e 0 (by decide), e 1 (by decide), e 2 (by decide), e 3 (by decide), e 4 (by decide),
    e 5 (by decide), e 6 (by decide), e 7 (by decide), e 8 (by decide), e 9 (by decide),
    e 10 (by decide), e 11 (by decide), e 12 (by decide), e 13 (by decide),
    e 14 (by decide), e 15 (by decide), e 16 (by decide), if_false]

theorem selectHandler_eq_add (op : Nat) : selectHandler op = Handler.add ↔ op = 1 := by
  constructor
  · intro h
    rcases Nat.lt_or_ge op 17 with h0 | h0
    · have key : ∀ k : Fin 17, selectHandler k.val = Handler.add → k.val = 1 := by decide
      exact key ⟨op, h0⟩ h
    · rw [selectHandler_default op h0] at h
      cases h
  · intro h
    subst h
    rfl

/-- Frame of one loop iteration on a word that is not an ADD. -/
theorem iteration_frame (cpu : CPU) (h : cpu.memory (cpu.registers R_PC) >>> 12 ≠ 1) :
    ∃ cpu1, iteration cpu = some cpu1 ∧ cpu1.cond = cpu.cond ∧ cpu1.memory = cpu.memory ∧
      (∀ i, i ≠ R_PC → cpu1.registers i = cpu.registers i) := by
  have hne : selectHandler (fetch cpu).currentOperation ≠ Handler.add := by
    rw [Ne, selectHandler_eq_add]
    exact h
  obtain ⟨cpu1, hr, hc, hm, hreg, -⟩ := runHandler_frame _ (fetch cpu) hne
  exact ⟨cpu1, hr, hc, hm, hreg⟩

theorem selectHandler_ne_traps (w : Nat) (hw : w < 65536) :
    selectHandler (w >>> 12) ≠ Handler.traps := by
  have h : w >>> 12 < 16 := by
    rw [Nat.shiftRight_eq_div_pow]
    omega
  have key : ∀ k : Fin 16, selectHandler k.val ≠ Handler.traps := by decide
  exact key ⟨w >>> 12, h⟩

/-- Effect of every arm of the switch other than `add` and `traps` on a state
whose slot `registers[R_COND]` is 0. -/
theorem runHandler_quiet (h : Handler) (cpu : CPU) (hadd : h ≠ Handler.add)
    (htr : h ≠ Handler.traps) (hc : cpu.registers R_COND = 0) :
    ∃ cpu1, runHandler h cpu = some cpu1 ∧ cpu1.registers = cpu.registers ∧
      cpu1.memory = cpu.memory ∧ cpu1.isRunning = cpu.isRunning ∧ cpu1.pc = cpu.pc ∧
      cpu1.cond = cpu.cond := by
  cases h
  case add => exact absurd rfl hadd
  case traps => exact absurd rfl htr
  case branch => exact ⟨cpu, branch_not_taken cpu hc, rfl, rfl, rfl, rfl, rfl⟩
  all_goals exact ⟨_, rfl, rfl, rfl, rfl, rfl, rfl⟩

/-- One loop iteration on a 16-bit word, from a running state whose slot
`registers[R_COND]` is 0. -/
theorem iteration_fixed (cpu : CPU) (hw : cpu.memory (cpu.registers R_PC) < 65536)
    (hrun : cpu.isRunning = true) (hc : cpu.registers R_COND = 0) :
    ∃ cpu1, iteration cpu = some cpu1 ∧ cpu1.isRunning = true ∧ cpu1.memory = cpu.memory ∧
      cpu1.registers R_COND = 0 ∧ cpu1.registers R_PC = cpu.registers R_PC ∧
      cpu1.pc = (cpu.pc + 1) % 65536 := by
  by_cases hop : cpu.memory (cpu.registers R_PC) >>> 12 = 1
  · obtain ⟨v, -, hadd⟩ := add_total (fetch cpu)
    refine ⟨_, (iteration_of_add cpu hop).trans hadd, hrun, rfl, ?_, ?_, rfl⟩
    · have hlt := and_seven_lt ((fetch cpu).currInstruction >>> 9)
      simp only [setSlot, R_COND]
      rw [if_neg (by omega)]
      exact hc
    · have hlt := and_seven_lt ((fetch cpu).currInstruction >>> 9)
      simp only [setSlot, R_PC]
      rw [if_neg (by omega)]
      rfl
  · have hne : selectHandler (fetch cpu).currentOperation ≠ Handler.add := by
      rw [Ne, selectHandler_eq_add]
      exact hop
    have htr : selectHandler (fetch cpu).currentOperation ≠ Handler.traps :=
      selectHandler_ne_traps _ hw
    obtain ⟨cpu1, hr, hreg, hm, hrn, hp, -⟩ := runHandler_quiet _ (fetch cpu) hne htr hc
    refine ⟨cpu1, hr, hrn.trans hrun, hm, ?_, ?_, hp⟩
    · rw [hreg]
      exact hc
    · rw [hreg]
      rfl

/-- After `k` iterations of the loop the machine is still running and still
fetches at the entry address. -/
theorem loop_fixed (m : Nat → Nat) (hm : ∀ a, m a < 65536) (k : Nat) :
    ∀ cpu : CPU, cpu.isRunning = true → cpu.memory = m → cpu.registers R_COND = 0 →
      cpu.pc < 65536 →
      ∃ cpu1, loop k cpu = Outcome.stillRunning cpu1 ∧ cpu1.isRunning = true ∧
        cpu1.memory = m ∧ cpu1.registers R_COND = 0 ∧
        cpu1.registers R_PC = cpu.registers R_PC ∧ cpu1.pc = (cpu.pc + k) % 65536 := by
  induction k with
  | zero =>
    intro cpu hrun hmem hc hpc
    refine ⟨cpu, ?_, hrun, hmem, hc, rfl, ?_⟩
    · unfold loop
      simp [hrun]
    · omega
  | succ n ih =>
    intro cpu hrun hmem hc hpc
    obtain ⟨cpu1, hit, hrun1, hmem1, hc1, hpc1, hp1⟩ :=
      iteration_fixed cpu (by rw [hmem]; exact hm _) hrun hc
    obtain ⟨cpu2, hl, hrun2, hmem2, hc2, hpc2, hp2⟩ := ih cpu1 hrun1 (hmem1.trans hmem) hc1 (by omega)
    refine ⟨cpu2, ?_, hrun2, hmem2, hc2, hpc2.trans hpc1, ?_⟩
    · unfold loop
      simp [hrun, hit, hl]
    · rw [hp2, hp1]
      omega

theorem mask_testBit (n i : Nat) :
    ((0xFFFF <<< n) % 65536).testBit i = (decide (i < 16) && decide (n ≤ i)) := by
  have h16 : (65536 : Nat) = 2 ^ 16 := by norm_num
  have hff : (0xFFFF : Nat) = 2 ^ 16 - 1 := by norm_num
  rw [h16, Nat.testBit_mod_two_pow, Nat.testBit_shiftLeft, hff, Nat.testBit_two_pow_sub_one]
  by_cases h1 : i < 16 <;> by_cases h2 : n ≤ i <;> simp [h1, h2]
  omega

theorem mask_lt (n : Nat) : (0xFFFF <<< n) % 65536 < 2 ^ 16 := by
  have h : (0xFFFF <<< n) % 65536 < 65536 := Nat.mod_lt _ (by decide)
  simpa using h

theorem sign_extend_no_panic (x : Nat) (n : Int) (h1 : 1 ≤ n)
    (h2 : n < 9223372036854775808) : sign_extend x n ≠ none := by
  have hcast : ((n.toNat : Nat) : Int) = n := Int.toNat_of_nonneg (by omega)
  have h := sign_extend_unfold x n.toNat (by omega) (by omega)
  rw [hcast] at h
  rw [h]
  exact fun hc => Option.noConfusion hc

theorem sign_extend_panics (x : Nat) (n : Int) (h1 : -9223372036854775808 < n)
    (h2 : n < 1) : sign_extend x n = none := by
  have hw : wrapInt (n - 1) = n - 1 := wrapInt_of_range _ (by omega) (by omega)
  unfold sign_extend
  rw [hw, if_pos (by omega)]

theorem shiftRight_of_wide (x k : Nat) (hx : x < 65536) (hk : 16 ≤ k) : x >>> k = 0 := by
  rw [Nat.shiftRight_eq_div_pow]
  apply Nat.div_eq_of_lt
  have h16 : (65536 : Nat) = 2 ^ 16 := by norm_num
  have hle : 2 ^ 16 ≤ 2 ^ k := Nat.pow_le_pow_right (by decide) hk
  omega

/-- At the least `int` the subtraction `bit_count-1` wraps to the greatest
`int`; the right shift then gives 0 and `x` is returned unchanged. -/
theorem sign_extend_least_int (x : Nat) (hx : x < 65536) :
    sign_extend x (-9223372036854775808) = some x := by
  have hw : wrapInt (-9223372036854775808 - 1) = 9223372036854775807 := by
    unfold wrapInt
    omega
  have ht : (9223372036854775807 : Int).toNat = 9223372036854775807 := rfl
  have hneg : ¬ ((9223372036854775807 : Int) < 0) := by decide
  have hk : 16 ≤ 9223372036854775807 := by decide
  have hs := shiftRight_of_wide x 9223372036854775807 hx hk
  have hz : ¬ ((0 : Nat) &&& 1 ≠ 0) := by decide
  unfold sign_extend
  rw [hw, if_neg hneg, ht, hs, if_neg hz]

theorem fetch_wf (cpu : CPU) (h : cpu.WF) : (fetch cpu).WF := by
  obtain ⟨hr, hm, -, -, -, hc⟩ := h
  refine ⟨hr, hm, hm _, ?_, Nat.mod_lt _ (by decide), hc⟩
  have hle : cpu.memory (cpu.registers R_PC) >>> 12 ≤ cpu.memory (cpu.registers R_PC) := by
    rw [Nat.shiftRight_eq_div_pow]
    exact Nat.div_le_self _ _
  exact Nat.lt_of_le_of_lt hle (hm _)

theorem traps_wf (cpu : CPU) (h : cpu.WF) : ∃ cpu1, traps cpu = some cpu1 ∧ cpu1.WF := by
  unfold traps
  simp only [trapGetc, trapOut, trapPuts, trapIn, trapPutsp, trapHalt, Stop]
  repeat' split
  all_goals exact ⟨_, rfl, h⟩

/-- No arm of the switch panics, and each keeps every word of the state
within 16 bits. -/
theorem runHandler_wf (h : Handler) (cpu : CPU) (hwf : cpu.WF) :
    ∃ cpu1, runHandler h cpu = some cpu1 ∧ cpu1.WF := by
  obtain ⟨hr, hm, hi, ho, hp, hc⟩ := hwf
  cases h
  case add =>
    obtain ⟨v, hv, hadd⟩ := add_total cpu
    refine ⟨_, hadd, ?_, hm, hi, ho, hp, ?_⟩
    · intro j
      simp only [setSlot]
      split
      · exact hv
      · exact hr j
    · simp only [FL_ZRO, FL_NEG, FL_POS]
      split_ifs <;> decide
  case branch =>
    obtain ⟨off, -, -, hb⟩ := branch_total cpu
    refine ⟨_, hb, ?_⟩
    split
    · refine ⟨?_, hm, hi, ho, hp, hc⟩
      intro j
      simp only [setSlot]
      split
      · exact Nat.mod_lt _ (by decide)
      · exact hr j
    · exact ⟨hr, hm, hi, ho, hp, hc⟩
  case traps => exact traps_wf cpu ⟨hr, hm, hi, ho, hp, hc⟩
  all_goals exact ⟨_, rfl, hr, hm, hi, ho, hp, hc⟩

/-! ## Claims -/

/-- C1 (the code departs from the claim): with `memory[0x3000] = 0xF025` and a
state obtained from `NewCPU` or from `Reset`, `Execute` has not returned after
any number `fuel` of loop iterations: the loop condition `isRunning` is still
true, because `0xF025 >> 12 = 15` is `OP_LEA`, whose handler is empty. -/
theorem C1_halt_program_never_returns (fuel : Nat) :
    (∃ cpu1, Execute fuel (withMemory NewCPU haltImage) = Outcome.stillRunning cpu1 ∧
      cpu1.isRunning = true) ∧
    (∀ cpu : CPU, ∃ cpu1,
      Execute fuel (withMemory (Reset cpu) haltImage) = Outcome.stillRunning cpu1 ∧
      cpu1.isRunning = true) := by
  constructor
  · apply loop_haltFetch
    simp [HaltFetch, executeEntry, withMemory, NewCPU, haltImage, setSlot, R_PC]
  · intro cpu
    apply loop_haltFetch
    simp [HaltFetch, executeEntry, withMemory, Reset, haltImage, setSlot, R_PC]

/-- C2 (the code departs from the claim): the switch of `Execute` selects the
handler of the specification's table only for the high nibbles 0 (BR) and 1
(ADD); for `0x2000` it runs `sub` where the table says LD, and for `0xF025`
it runs `loadEffectiveAddress` where the table says TRAP. -/
theorem C2_decode_table_shifted :
    (∀ n : Fin 16, selectHandler n.val = specHandler n.val ↔ n.val ≤ 1) ∧
    (fetch (executeEntry (withMemory NewCPU haltImage))).currentOperation = 0xF025 >>> 12 ∧
    selectHandler (0xF025 >>> 12) = Handler.loadEffectiveAddress ∧
    specHandler (0xF025 >>> 12) = Handler.traps ∧
    selectHandler (0x2000 >>> 12) = Handler.sub ∧
    specHandler (0x2000 >>> 12) = Handler.load ∧
    (∀ w : Nat, w < 65536 → selectHandler (w >>> 12) ≠ Handler.traps) := by
  refine ⟨by decide, by decide, by decide, by decide, by decide, by decide, ?_⟩
  intro w hw
  have h : w >>> 12 < 16 := by
    rw [Nat.shiftRight_eq_div_pow]
    omega
  generalize w >>> 12 = op at h
  interval_cases op <;> decide

/-- C3 (the code departs from the claim): `fetch` reads
`memory[registers[R_PC]]` and increments the field `pc`, never the slot
`registers[R_PC]`; after `ADD R0, R0, #1` fetched at `0x3000` the next
iteration fetches at `0x3000` again, not at `0x3001`. -/
theorem C3_fetch_address_not_advanced :
    (∀ cpu : CPU, (fetch cpu).currInstruction = cpu.memory (cpu.registers R_PC) ∧
      (fetch cpu).registers R_PC = cpu.registers R_PC ∧
      (fetch cpu).pc = (cpu.pc + 1) % 65536) ∧
    (executeEntry (withMemory NewCPU addHaltImage)).registers R_PC = 0x3000 ∧
    ∃ cpu1, iteration (executeEntry (withMemory NewCPU addHaltImage)) = some cpu1 ∧
      cpu1.registers R_R0 = 1 ∧
      cpu1.registers R_PC = 0x3000 ∧
      cpu1.pc = 0x3001 ∧
      (fetch cpu1).currInstruction = 0x1021 ∧
      cpu1.memory ((0x3000 + 1) % 65536) = 0xF025 := by
  refine ⟨fun cpu => ⟨rfl, rfl, rfl⟩, by decide, ?_⟩
  refine ⟨_, rfl, ?_⟩
  decide

/-- C4: one `Execute` iteration on an ADD word `w` (high nibble 1) with bit 5
clear leaves `R[DR] = (R[SR1] + R[SR2]) mod 2^16`, the sources read before
the write (so also when `DR` is a source), and leaves every other slot of
the register file unchanged. -/
theorem C4_add_register_modular (cpu : CPU) (w : Nat)
    (hfetch : cpu.memory (cpu.registers R_PC) = w) (hop : w >>> 12 = 1)
    (hbit : (w >>> 5) &&& 1 = 0) :
    ∃ cpu1, iteration cpu = some cpu1 ∧
      cpu1.registers ((w >>> 9) &&& 7) =
        (cpu.registers ((w >>> 6) &&& 7) + cpu.registers (w &&& 7)) % 65536 ∧
      ∀ i, i ≠ (w >>> 9) &&& 7 → cpu1.registers i = cpu.registers i := by
  subst hfetch
  have hcur : (fetch cpu).currInstruction = cpu.memory (cpu.registers R_PC) := rfl
  have hadd := add_register_mode (fetch cpu) (by rw [hcur]; exact hbit)
  rw [hcur] at hadd
  refine ⟨_, (iteration_of_add cpu hop).trans hadd, ?_, ?_⟩
  · simp [setSlot, fetch]
  · intro i hi
    simp [setSlot, fetch, hi]

/-- C4 witness: `ADD R1, R1, R2` with `R1 = 0xFFFF`, `R2 = 3` leaves `R1 = 2`. -/
theorem C4_add_register_modular_witness :
    addWrapState.memory (addWrapState.registers R_PC) = 0x1242 ∧ 0x1242 >>> 12 = 1 ∧
    (0x1242 >>> 5) &&& 1 = 0 ∧
    ∃ cpu1, iteration addWrapState = some cpu1 ∧
      cpu1.registers ((0x1242 >>> 9) &&& 7) =
        (addWrapState.registers ((0x1242 >>> 6) &&& 7) +
          addWrapState.registers (0x1242 &&& 7)) % 65536 ∧
      ∀ i, i ≠ (0x1242 >>> 9) &&& 7 → cpu1.registers i = addWrapState.registers i :=
  ⟨by decide, by decide, by decide,
    C4_add_register_modular addWrapState 0x1242 (by decide) (by decide) (by decide)⟩

/-- C5: one `Execute` iteration on an ADD word `w` (high nibble 1) with bit 5
set leaves `R[DR] = (R[SR1] + sign_extend(w & 0x1F, 5)) mod 2^16`; read as a
two's-complement number the immediate lies in `-16..15`, and the new `R[DR]`
is `R[SR1]` plus that signed immediate, modulo `2^16`. -/
theorem C5_add_immediate (cpu : CPU) (w : Nat)
    (hfetch : cpu.memory (cpu.registers R_PC) = w) (hop : w >>> 12 = 1)
    (hbit : (w >>> 5) &&& 1 ≠ 0) :
    ∃ imm5 cpu1, sign_extend (w &&& 0x1F) 5 = some imm5 ∧ iteration cpu = some cpu1 ∧
      cpu1.registers ((w >>> 9) &&& 7) = (cpu.registers ((w >>> 6) &&& 7) + imm5) % 65536 ∧
      -16 ≤ toSigned 5 (w &&& 0x1F) ∧ toSigned 5 (w &&& 0x1F) ≤ 15 ∧
      ((cpu1.registers ((w >>> 9) &&& 7) : Nat) : Int) =
        ((cpu.registers ((w >>> 6) &&& 7) : Int) + toSigned 5 (w &&& 0x1F)) % 65536 := by
  subst hfetch
  have hcur : (fetch cpu).currInstruction = cpu.memory (cpu.registers R_PC) := rfl
  have himm := sign_extend_imm5 (cpu.memory (cpu.registers R_PC))
  have hadd := add_immediate_mode (fetch cpu) (by rw [hcur]; exact hbit) _
    (by rw [hcur]; exact himm)
  rw [hcur] at hadd
  have hlt : cpu.memory (cpu.registers R_PC) &&& 0x1F < 32 :=
    and_mask_lt (cpu.memory (cpu.registers R_PC)) 5
  have hreg : ∀ v, (setSlot (fetch cpu).registers
      ((cpu.memory (cpu.registers R_PC) >>> 9) &&& 7) v)
      ((cpu.memory (cpu.registers R_PC) >>> 9) &&& 7) = v := by
    intro v
    simp [setSlot]
  refine ⟨_, _, himm, (iteration_of_add cpu hop).trans hadd, ?_, ?_, ?_, ?_⟩
  · exact hreg _
  · simp only [toSigned]
    split <;> omega
  · simp only [toSigned]
    split <;> omega
  · simp only [hreg]
    have hf : (fetch cpu).registers = cpu.registers := rfl
    rw [hf]
    generalize cpu.registers ((cpu.memory (cpu.registers R_PC) >>> 6) &&& 7) = a
    generalize cpu.memory (cpu.registers R_PC) &&& 0x1F = x at hlt ⊢
    simp only [toSigned]
    split <;> split <;> omega

/-- C5 witness: the two scenarios of the specification, `0x1225` with
`R0 = 10` giving `R1 = 15` and `0x127F` with `R1 = 0` giving `R1 = 0xFFFF`. -/
theorem C5_add_immediate_witness :
    (addImmState.memory (addImmState.registers R_PC) = 0x1225 ∧ 0x1225 >>> 12 = 1 ∧
      (0x1225 >>> 5) &&& 1 ≠ 0 ∧ addImmState.registers R_R0 = 10 ∧
      ∃ cpu1, iteration addImmState = some cpu1 ∧ cpu1.registers R_R1 = 15) ∧
    (addNegImmState.memory (addNegImmState.registers R_PC) = 0x127F ∧ 0x127F >>> 12 = 1 ∧
      (0x127F >>> 5) &&& 1 ≠ 0 ∧ addNegImmState.registers R_R1 = 0 ∧
      ∃ cpu1, iteration addNegImmState = some cpu1 ∧ cpu1.registers R_R1 = 0xFFFF) := by
  refine ⟨⟨by decide, by decide, by decide, by decide, ?_⟩,
    ⟨by decide, by decide, by decide, by decide, ?_⟩⟩
  · obtain ⟨imm5, cpu1, hs, hit, hr, -⟩ :=
      C5_add_immediate addImmState 0x1225 (by decide) (by decide) (by decide)
    have h5 : sign_extend (0x1225 &&& 0x1F) 5 = some 5 := by decide
    rw [h5] at hs
    cases hs
    exact ⟨cpu1, hit, hr.trans (by decide)⟩
  · obtain ⟨imm5, cpu1, hs, hit, hr, -⟩ :=
      C5_add_immediate addNegImmState 0x127F (by decide) (by decide) (by decide)
    have h5 : sign_extend (0x127F &&& 0x1F) 5 = some 0xFFFF := by decide
    rw [h5] at hs
    cases hs
    exact ⟨cpu1, hit, hr.trans (by decide)⟩

/-- C6: one `Execute` iteration on an ADD word `w` (high nibble 1, either
operand mode) leaves the flag field `cond` equal to exactly one of `P = 1`,
`Z = 2`, `N = 4`, the one determined by the new value of `R[DR]`: `Z` when it
is 0, else `N` when its bit 15 is set, else `P`. -/
theorem C6_add_flag_exclusive (cpu : CPU) (w : Nat)
    (hfetch : cpu.memory (cpu.registers R_PC) = w) (hop : w >>> 12 = 1) :
    ∃ cpu1, iteration cpu = some cpu1 ∧
      (cpu1.cond = 1 ∨ cpu1.cond = 2 ∨ cpu1.cond = 4) ∧
      cpu1.cond =
        (if cpu1.registers ((w >>> 9) &&& 7) = 0 then FL_ZRO
         else if (cpu1.registers ((w >>> 9) &&& 7)).testBit 15 = true then FL_NEG
         else FL_POS) := by
  subst hfetch
  obtain ⟨v, hv, hadd⟩ := add_total (fetch cpu)
  have hcur : (fetch cpu).currInstruction = cpu.memory (cpu.registers R_PC) := rfl
  rw [hcur] at hadd
  refine ⟨_, (iteration_of_add cpu hop).trans hadd, ?_, ?_⟩
  · simp only [FL_ZRO, FL_NEG, FL_POS]
    split
    · exact Or.inr (Or.inl rfl)
    · split
      · exact Or.inr (Or.inr rfl)
      · exact Or.inl rfl
  · have hreg : (setSlot (fetch cpu).registers
        ((cpu.memory (cpu.registers R_PC) >>> 9) &&& 7) v)
        ((cpu.memory (cpu.registers R_PC) >>> 9) &&& 7) = v := by
      simp [setSlot]
    simp only [hreg, shift15_ne_zero_iff v hv]

/-- C6 witness: `ADD R1, R1, #-1` with `R1 = 0` (destination equal to the
source) leaves `R1 = 0xFFFF` and `cond = N`. -/
theorem C6_add_flag_exclusive_witness :
    addNegImmState.memory (addNegImmState.registers R_PC) = 0x127F ∧ 0x127F >>> 12 = 1 ∧
    ∃ cpu1, iteration addNegImmState = some cpu1 ∧
      (cpu1.cond = 1 ∨ cpu1.cond = 2 ∨ cpu1.cond = 4) ∧
      cpu1.cond =
        (if cpu1.registers ((0x127F >>> 9) &&& 7) = 0 then FL_ZRO
         else if (cpu1.registers ((0x127F >>> 9) &&& 7)).testBit 15 = true then FL_NEG
         else FL_POS) :=
  ⟨by decide, by decide,
    C6_add_flag_exclusive addNegImmState 0x127F (by decide) (by decide)⟩

/-- C7 (the code departs from the claim): `updateFlags` writes the field
`cond`, `branch` tests the slot `registers[R_COND]`, which no handler writes.
From the entry state of `Execute` on a new machine, whatever ADD word `wa`
and BR word `wb` are executed in turn, the branch is not taken.  With
`ADD R0, R0, #0` (`0x1020`, result 0, flag Z) followed by `BRz +1` (`0x0401`,
mask containing Z) the slot `registers[R_PC]` stays `0x3000` where the claim
says `0x3001`. -/
theorem C7_branch_ignores_add_flags :
    (∀ wa wb : Nat, ∃ cpu1 cpu2,
      add (withInstr (executeEntry NewCPU) wa) = some cpu1 ∧
      branch (withInstr cpu1 wb) = some cpu2 ∧
      cpu2.registers R_PC = cpu1.registers R_PC ∧ cpu2.pc = cpu1.pc) ∧
    (∃ cpu1 cpu2,
      add (withInstr (executeEntry NewCPU) 0x1020) = some cpu1 ∧
      cpu1.registers R_R0 = 0 ∧ cpu1.cond = FL_ZRO ∧
      ((0x0401 >>> 9) &&& 7) &&& FL_ZRO ≠ 0 ∧
      sign_extend (0x0401 &&& 0x1FF) 9 = some 1 ∧
      cpu1.registers R_PC = 0x3000 ∧
      branch (withInstr cpu1 0x0401) = some cpu2 ∧
      cpu2.registers R_PC = 0x3000 ∧
      cpu2.registers R_PC ≠ (cpu1.registers R_PC + 1) % 65536) := by
  constructor
  · intro wa wb
    obtain ⟨v, -, hadd⟩ := add_total (withInstr (executeEntry NewCPU) wa)
    refine ⟨_, _, hadd, branch_not_taken _ ?_, rfl, rfl⟩
    have hlt := and_seven_lt (wa >>> 9)
    simp only [withInstr, setSlot, executeEntry, NewCPU, R_COND, R_PC]
    rw [if_neg (by omega)]
    simp
  · exact ⟨_, _, rfl, by decide, by decide, by decide, by decide, by decide, rfl,
      by decide, by decide⟩

/-- C8 (counterexample to the claim as stated): `Execute` does not set the
flags on entry, and on a new machine with zeroed memory (the word fetched is
`0x0000`, a BR that is not taken) the flag field after the first loop
iteration is 0, none of 1, 2, 4; the slot `registers[R_COND]` is 0 as well. -/
theorem C8_cond_not_one_hot_after_first_iteration :
    (executeEntry NewCPU).cond = 0 ∧ (executeEntry NewCPU).cond ≠ FL_ZRO ∧
    ∃ cpu1, iteration (executeEntry NewCPU) = some cpu1 ∧
      cpu1.cond = 0 ∧ ¬ (cpu1.cond = 1 ∨ cpu1.cond = 2 ∨ cpu1.cond = 4) ∧
      cpu1.registers R_COND = 0 :=
  ⟨by decide, by decide, _, rfl, by decide, by decide, by decide⟩

/-- C8 (amended): `Execute` does not set the flags on entry: the flag field
`cond` keeps the value left by `NewCPU` (0) or left untouched by `Reset`.
For a state produced by `NewCPU` or by `Reset` and every memory contents `m`
the first loop iteration of `Execute` completes; after it `cond` is exactly
one of 1, 2, 4 when the fetched word `m[0x3000]` is an ADD (high nibble 1),
and when it is a BR (high nibble 0, an instruction that updates no flag)
`cond` still has its entry value. -/
theorem C8_cond_after_first_iteration (cpu : CPU) (m : Nat → Nat) :
    (executeEntry (withMemory NewCPU m)).cond = 0 ∧
    (executeEntry (withMemory (Reset cpu) m)).cond = cpu.cond ∧
    (∃ cpu1, iteration (executeEntry (withMemory NewCPU m)) = some cpu1 ∧
      (m 0x3000 >>> 12 = 1 → cpu1.cond = 1 ∨ cpu1.cond = 2 ∨ cpu1.cond = 4) ∧
      (m 0x3000 >>> 12 = 0 → cpu1.cond = 0)) ∧
    (∃ cpu1, iteration (executeEntry (withMemory (Reset cpu) m)) = some cpu1 ∧
      (m 0x3000 >>> 12 = 1 → cpu1.cond = 1 ∨ cpu1.cond = 2 ∨ cpu1.cond = 4) ∧
      (m 0x3000 >>> 12 = 0 → cpu1.cond = cpu.cond)) := by
  have key : ∀ s : CPU, s.memory (s.registers R_PC) = m 0x3000 →
      ∃ cpu1, iteration s = some cpu1 ∧
        (m 0x3000 >>> 12 = 1 → cpu1.cond = 1 ∨ cpu1.cond = 2 ∨ cpu1.cond = 4) ∧
        (m 0x3000 >>> 12 = 0 → cpu1.cond = s.cond) := by
    intro s hs
    by_cases hop : m 0x3000 >>> 12 = 1
    · obtain ⟨v, -, hadd⟩ := add_total (fetch s)
      refine ⟨_, (iteration_of_add s (by rw [hs]; exact hop)).trans hadd, ?_, ?_⟩
      · intro _
        simp only [FL_ZRO, FL_NEG, FL_POS]
        split
        · exact Or.inr (Or.inl rfl)
        · split
          · exact Or.inr (Or.inr rfl)
          · exact Or.inl rfl
      · intro h0
        rw [h0] at hop
        cases hop
    · obtain ⟨cpu1, hit, hc, -⟩ := iteration_frame s (by rw [hs]; exact hop)
      exact ⟨cpu1, hit, fun h => absurd h hop, fun _ => hc⟩
  exact ⟨rfl, rfl, key (executeEntry (withMemory NewCPU m)) rfl,
    key (executeEntry (withMemory (Reset cpu) m)) rfl⟩

/-- C9: for `n` in `{5, 6, 9, 11}` and `x < 2^n`, `sign_extend(x, n)` returns
a 16-bit word which, read as a signed 16-bit two's-complement integer, equals
`x` read as a signed `n`-bit two's-complement integer. -/
theorem C9_sign_extend_signed_value (n x : Nat) (hn : n = 5 ∨ n = 6 ∨ n = 9 ∨ n = 11)
    (hx : x < 2 ^ n) :
    ∃ r, sign_extend x (n : Int) = some r ∧ r < 65536 ∧ toSigned 16 r = toSigned n x := by
  refine ⟨_, sign_extend_of_lt n x hn hx, ?_, ?_⟩
  · rcases hn with rfl | rfl | rfl | rfl <;>
      simp only [Nat.reducePow, Nat.reduceSub] at hx ⊢ <;> split_ifs <;> omega
  · rcases hn with rfl | rfl | rfl | rfl <;>
      simp only [toSigned, Nat.reducePow, Nat.reduceSub] at hx ⊢ <;> split_ifs <;> omega

/-- C9 witness: `sign_extend(0x1F, 5) = 0xFFFF`, and both sides read as `-1`. -/
theorem C9_sign_extend_signed_value_witness :
    (5 = 5 ∨ 5 = 6 ∨ 5 = 9 ∨ 5 = 11) ∧ 0x1F < 2 ^ 5 ∧
    sign_extend 0x1F 5 = some 0xFFFF ∧ toSigned 16 0xFFFF = -1 ∧ toSigned 5 0x1F = -1 ∧
    ∃ r, sign_extend 0x1F ((5 : Nat) : Int) = some r ∧ r < 65536 ∧
      toSigned 16 r = toSigned 5 0x1F :=
  ⟨Or.inl rfl, by decide, by decide, by decide, by decide,
    C9_sign_extend_signed_value 5 0x1F (Or.inl rfl) (by decide)⟩

/-- C10: after `Reset` every slot of the register file (R0..R7, PC, COND) is
0, the running flag is false, the field `pc` is `0x3000`, the
current-instruction and current-operation caches are 0, and every memory
cell holds the value it held before; `NewCPU` gives the same register file,
flag, `pc` and caches. -/
theorem C10_reset_postcondition (cpu : CPU) :
    (∀ i, (Reset cpu).registers i = 0) ∧
    (Reset cpu).isRunning = false ∧
    (Reset cpu).pc = 0x3000 ∧
    (Reset cpu).currInstruction = 0 ∧
    (Reset cpu).currentOperation = 0 ∧
    (∀ a, (Reset cpu).memory a = cpu.memory a) ∧
    ((∀ i, NewCPU.registers i = 0) ∧ NewCPU.isRunning = false ∧ NewCPU.pc = 0x3000 ∧
      NewCPU.currInstruction = 0 ∧ NewCPU.currentOperation = 0) :=
  ⟨fun _ => rfl, rfl, rfl, rfl, rfl, fun _ => rfl, fun _ => rfl, rfl, rfl, rfl, rfl⟩

/-- C11: one `Execute` iteration of a running machine on a word whose high
nibble is `0x8` (RTI) or `0xD` (RES) leaves every slot of the register file
(R0..R7 among them), the flag field `cond` and every memory cell unchanged,
and leaves the running flag true. -/
theorem C11_res_rti_no_op (cpu : CPU) (w : Nat) (hrun : cpu.isRunning = true)
    (hfetch : cpu.memory (cpu.registers R_PC) = w) (hop : w >>> 12 = 0x8 ∨ w >>> 12 = 0xD) :
    ∃ cpu1, iteration cpu = some cpu1 ∧ (∀ i, cpu1.registers i = cpu.registers i) ∧
      cpu1.cond = cpu.cond ∧ (∀ a, cpu1.memory a = cpu.memory a) ∧
      cpu1.isRunning = true := by
  subst hfetch
  have hit : iteration cpu = some (fetch cpu) := by
    have hcur : (fetch cpu).currentOperation = cpu.memory (cpu.registers R_PC) >>> 12 := rfl
    rcases hop with h | h
    · simp only [iteration, hcur, h]
      rfl
    · simp only [iteration, hcur, h]
      rfl
  exact ⟨_, hit, fun _ => rfl, rfl, fun _ => rfl, hrun⟩

/-- C11 witness: a running new machine fetching `0x8000`. -/
theorem C11_res_rti_no_op_witness :
    rtiState.isRunning = true ∧ rtiState.memory (rtiState.registers R_PC) = 0x8000 ∧
    (0x8000 >>> 12 = 0x8 ∨ 0x8000 >>> 12 = 0xD) ∧
    ∃ cpu1, iteration rtiState = some cpu1 ∧ (∀ i, cpu1.registers i = rtiState.registers i) ∧
      cpu1.cond = rtiState.cond ∧ (∀ a, cpu1.memory a = rtiState.memory a) ∧
      cpu1.isRunning = true :=
  ⟨by decide, by decide, Or.inl (by decide),
    C11_res_rti_no_op rtiState 0x8000 (by decide) (by decide) (Or.inl (by decide))⟩

/-- C12 (the code departs from the claim): `storeIndirect` and `loadIndirect`
have empty bodies.  With `R0 = 0x1234`, `STI R0, #2` followed by `LDI R1, #2`
stores nothing and leaves `R1 = 0`, not `0x1234`; through the switch of
`Execute` the STI word `0xB002` reaches `loadIndirect` and the LDI word
`0xA202` reaches `bitwiseNot`, both empty as well. -/
theorem C12_sti_ldi_no_round_trip :
    (∀ cpu : CPU, storeIndirect cpu = some cpu ∧ loadIndirect cpu = some cpu) ∧
    indirectState.registers R_R0 = 0x1234 ∧
    (∃ cpu1 cpu2, storeIndirect (withInstr indirectState 0xB002) = some cpu1 ∧
      (∀ a, cpu1.memory a = indirectState.memory a) ∧
      loadIndirect (withInstr cpu1 0xA202) = some cpu2 ∧
      cpu2.registers R_R1 = 0 ∧ cpu2.registers R_R1 ≠ cpu1.registers R_R0) ∧
    selectHandler (0xB002 >>> 12) = Handler.loadIndirect ∧
    selectHandler (0xA202 >>> 12) = Handler.bitwiseNot ∧
    (∃ cpu1, iteration indirectState = some cpu1 ∧ cpu1.currInstruction = 0xB002 ∧
      cpu1.memory 0x4000 = 0 ∧ cpu1.registers R_R1 = 0) :=
  ⟨fun _ => ⟨rfl, rfl⟩, by decide,
    ⟨_, _, rfl, fun _ => rfl, rfl, by decide, by decide⟩, by decide, by decide,
    ⟨_, rfl, by decide, by decide, by decide⟩⟩

/-- C13 (the code departs from the claim): `jumpRegister` and `jump` have
empty bodies.  After `JSR +2` fetched at `0x3000` the register R7 is still 0,
not the address `0x3001` of the following instruction, and a `JMP R7`
(`0xC1C0`) after it leaves `registers[R_PC]` at `0x3000`. -/
theorem C13_jsr_ret_no_round_trip :
    (∀ cpu : CPU, jumpRegister cpu = some cpu ∧ jump cpu = some cpu) ∧
    (0x4802 >>> 11) &&& 1 = 1 ∧
    (∃ cpu1 cpu2, jumpRegister (fetch jsrState) = some cpu1 ∧
      cpu1.currInstruction = 0x4802 ∧ cpu1.pc = 0x3001 ∧
      cpu1.registers R_R7 = 0 ∧ cpu1.registers R_R7 ≠ 0x3001 ∧
      jump (withInstr cpu1 0xC1C0) = some cpu2 ∧
      cpu2.registers R_PC = 0x3000 ∧ cpu2.registers R_PC ≠ 0x3001 ∧ cpu2.pc = 0x3001) ∧
    (∃ cpu1, iteration jsrState = some cpu1 ∧ cpu1.registers R_R7 = 0 ∧
      cpu1.registers R_PC = 0x3000) :=
  ⟨fun _ => ⟨rfl, rfl⟩, by decide,
    ⟨_, _, rfl, by decide, by decide, by decide, by decide, rfl, by decide, by decide,
      by decide⟩,
    ⟨_, rfl, by decide, by decide⟩⟩

/-- C14 (the code departs from the claim): `loadEffectiveAddress` and `load`
have empty bodies.  After `LEA R1, #2` and `LD R2, #2` the register R1 is
still 0, neither `0x3002` nor `0x3003`, and R2 is still 0 while the cell
`memory[R1]` holds 5. -/
theorem C14_lea_ld_not_consistent :
    (∀ cpu : CPU, loadEffectiveAddress cpu = some cpu ∧ load cpu = some cpu) ∧
    (∃ cpu1 cpu2, loadEffectiveAddress (fetch leaState) = some cpu1 ∧
      cpu1.currInstruction = 0xE202 ∧ cpu1.registers R_PC = 0x3000 ∧ cpu1.pc = 0x3001 ∧
      load (withInstr cpu1 0x2402) = some cpu2 ∧
      cpu2.registers R_R1 = 0 ∧ cpu2.registers R_R2 = 0 ∧
      cpu2.memory (cpu2.registers R_R1) = 5 ∧
      cpu2.registers R_R2 ≠ cpu2.memory (cpu2.registers R_R1) ∧
      cpu2.registers R_R1 ≠ (0x3000 + 2) % 65536 ∧
      cpu2.registers R_R1 ≠ (0x3001 + 2) % 65536) ∧
    (∃ cpu1, iteration leaState = some cpu1 ∧ cpu1.registers R_R1 = 0) :=
  ⟨fun _ => ⟨rfl, rfl⟩,
    ⟨_, _, rfl, by decide, by decide, by decide, rfl, by decide, by decide, by decide,
      by decide, by decide, by decide⟩,
    ⟨_, rfl, by decide⟩⟩

/-- C15 (counterexample to the claim as stated): `sign_extend(0x8000, 5)`
returns `0x8000` unchanged, because bit 4 of the argument is clear; bit 15 of
the result is set while bit 4 of `x` is not. -/
theorem C15_high_bits_kept_when_sign_bit_clear :
    (0x8000 : Nat) < 65536 ∧ sign_extend 0x8000 5 = some 0x8000 ∧
    Nat.testBit 0x8000 (5 - 1) = false ∧ Nat.testBit 0x8000 15 = true := by
  decide

/-- C15 (amended): for `1 ≤ n ≤ 16` and a 16-bit `x`, `sign_extend(x, n)`
returns a 16-bit word whose low `n` bits are those of `x`; when bit `n-1` of
`x` is set every bit `n..15` of the result is set; when it is clear the
result is `x` itself.  Hence bits `n..15` of the result all equal bit `n-1`
of `x` whenever `x < 2^n`. -/
theorem C15_sign_extend_bits (n x : Nat) (hn1 : 1 ≤ n) (hn16 : n ≤ 16) (hx : x < 65536) :
    ∃ r, sign_extend x (n : Int) = some r ∧ r < 65536 ∧
      (∀ i, i < n → r.testBit i = x.testBit i) ∧
      (x.testBit (n - 1) = true → ∀ i, n ≤ i → i < 16 → r.testBit i = true) ∧
      (x.testBit (n - 1) = false → r = x) ∧
      (x < 2 ^ n → ∀ i, n ≤ i → i < 16 → r.testBit i = x.testBit (n - 1)) := by
  refine ⟨_, sign_extend_unfold x n hn1 (by omega), ?_⟩
  by_cases hb : x.testBit (n - 1) = true
  · rw [if_pos hb]
    have hhigh : ∀ i, n ≤ i → i < 16 →
        (x ||| ((0xFFFF <<< n) % 65536)).testBit i = true := by
      intro i h1 h2
      rw [Nat.testBit_or, mask_testBit]
      simp [h1, h2]
    refine ⟨?_, ?_, fun _ => hhigh, ?_, ?_⟩
    · have hx16 : x < 2 ^ 16 := by simpa using hx
      have h := Nat.or_lt_two_pow hx16 (mask_lt n)
      simpa using h
    · intro i hi
      rw [Nat.testBit_or, mask_testBit]
      have : ¬ n ≤ i := by omega
      simp [this]
    · intro hf
      rw [hb] at hf
      cases hf
    · intro _ i h1 h2
      rw [hb]
      exact hhigh i h1 h2
  · have hb' : x.testBit (n - 1) = false := by simpa using hb
    rw [if_neg hb]
    refine ⟨hx, fun _ _ => rfl, ?_, fun _ => rfl, ?_⟩
    · intro ht
      exact absurd ht hb
    · intro hlt i h1 _
      rw [hb']
      apply Nat.testBit_lt_two_pow
      exact Nat.lt_of_lt_of_le hlt (Nat.pow_le_pow_right (by decide) h1)

/-- C15 witness: `sign_extend(0x1F, 5) = 0xFFFF`. -/
theorem C15_sign_extend_bits_witness :
    1 ≤ 5 ∧ 5 ≤ 16 ∧ 0x1F < 65536 ∧ sign_extend 0x1F 5 = some 0xFFFF ∧
    ∃ r, sign_extend 0x1F ((5 : Nat) : Int) = some r ∧ r < 65536 ∧
      (∀ i, i < 5 → r.testBit i = Nat.testBit 0x1F i) ∧
      (Nat.testBit 0x1F (5 - 1) = true → ∀ i, 5 ≤ i → i < 16 → r.testBit i = true) ∧
      (Nat.testBit 0x1F (5 - 1) = false → r = 0x1F) ∧
      (0x1F < 2 ^ 5 → ∀ i, 5 ≤ i → i < 16 → r.testBit i = Nat.testBit 0x1F (5 - 1)) :=
  ⟨by decide, by decide, by decide, by decide,
    C15_sign_extend_bits 5 0x1F (by decide) (by decide) (by decide)⟩

/-- C16: for a register index `i` in `0..7` holding a 16-bit word,
`updateFlags(i)` sets the flag field `cond` to `Z = 2` if `R[i] = 0`, else to
`N = 4` if bit 15 of `R[i]` is set, else to `P = 1`, and changes no slot of
the register file (so no general register and not the PC slot), no memory
cell, neither the field `pc` nor the running flag. -/
theorem C16_updateFlags_definition (cpu : CPU) (i : Nat) (hi : i < 8)
    (hv : cpu.registers i < 65536) :
    ∃ cpu1, updateFlags cpu i = some cpu1 ∧
      cpu1.cond =
        (if cpu.registers i = 0 then 2 else if (cpu.registers i).testBit 15 = true then 4
         else 1) ∧
      (∀ j, cpu1.registers j = cpu.registers j) ∧ (∀ a, cpu1.memory a = cpu.memory a) ∧
      cpu1.pc = cpu.pc ∧ cpu1.isRunning = cpu.isRunning := by
  have hi' : i < R_COUNT := by
    unfold R_COUNT
    omega
  have hu : updateFlags cpu i = some { cpu with
      cond := if cpu.registers i = 0 then 2
        else if (cpu.registers i).testBit 15 = true then 4 else 1 } := by
    simp only [updateFlags, regGet, if_pos hi', shift15_ne_zero_iff _ hv, FL_ZRO, FL_NEG,
      FL_POS]
    split
    · rfl
    · split <;> rfl
  exact ⟨_, hu, rfl, fun _ => rfl, fun _ => rfl, rfl, rfl⟩

/-- C16 witness: `updateFlags(1)` with `R1 = 0xFFFF` sets `cond = 4`. -/
theorem C16_updateFlags_definition_witness :
    1 < 8 ∧ addWrapState.registers 1 < 65536 ∧ addWrapState.registers 1 = 0xFFFF ∧
    ∃ cpu1, updateFlags addWrapState 1 = some cpu1 ∧
      cpu1.cond =
        (if addWrapState.registers 1 = 0 then 2
         else if (addWrapState.registers 1).testBit 15 = true then 4 else 1) ∧
      (∀ j, cpu1.registers j = addWrapState.registers j) ∧
      (∀ a, cpu1.memory a = addWrapState.memory a) ∧
      cpu1.pc = addWrapState.pc ∧ cpu1.isRunning = addWrapState.isRunning :=
  ⟨by decide, by decide, by decide,
    C16_updateFlags_definition addWrapState 1 (by decide) (by decide)⟩

/-- C17: on a state all of whose words are 16-bit, one `Execute` iteration
does not panic: the fetch address `registers[R_PC]` is below 65536, the
register indices `(instr>>9)&7`, `(instr>>6)&7`, `instr&7` are below
`R_COUNT`, `sign_extend` does not panic for any bit count of 1 or more and
the calls use 5 and 9, and the resulting state again has only 16-bit words
(every addition is reduced modulo `2^16`).  Below 1 `sign_extend` panics on
a negative shift count, except at the least `int`, where `bit_count-1`
wraps and a 16-bit `x` is returned unchanged. -/
theorem C17_iteration_no_fault (cpu : CPU) (hwf : cpu.WF) :
    cpu.registers R_PC < 65536 ∧
    (∀ w : Nat, (w >>> 9) &&& 7 < R_COUNT ∧ (w >>> 6) &&& 7 < R_COUNT ∧ w &&& 7 < R_COUNT) ∧
    (∀ (x : Nat) (n : Int), 1 ≤ n → n < 9223372036854775808 → sign_extend x n ≠ none) ∧
    (∀ (x : Nat) (n : Int), -9223372036854775808 < n → n < 1 → sign_extend x n = none) ∧
    (∀ x : Nat, x < 65536 → sign_extend x (-9223372036854775808) = some x) ∧
    (∀ x : Nat, sign_extend x 5 ≠ none ∧ sign_extend x 9 ≠ none) ∧
    ∃ cpu1, iteration cpu = some cpu1 ∧ cpu1.WF := by
  refine ⟨hwf.1 R_PC, ?_, sign_extend_no_panic, sign_extend_panics, sign_extend_least_int,
    ?_, ?_⟩
  · intro w
    exact ⟨and_seven_lt_count _, and_seven_lt_count _, and_seven_lt_count _⟩
  · intro x
    exact ⟨sign_extend_no_panic x 5 (by decide) (by decide),
      sign_extend_no_panic x 9 (by decide) (by decide)⟩
  · exact runHandler_wf _ (fetch cpu) (fetch_wf cpu hwf)

/-- C17 witness: the state of scenario S1 (`ADD R1, R0, #5`, `R0 = 10`). -/
theorem C17_iteration_no_fault_witness :
    addImmState.WF ∧ ∃ cpu1, iteration addImmState = some cpu1 ∧ cpu1.WF := by
  have hwf : addImmState.WF := by
    refine ⟨?_, ?_, by decide, by decide, by decide, by decide⟩
    · intro i
      simp only [addImmState, withRegister, executeEntry, withMemory, NewCPU, setSlot]
      split_ifs <;> decide
    · intro a
      simp only [addImmState, withRegister, executeEntry, withMemory, NewCPU]
      split_ifs <;> decide
  exact ⟨hwf, (C17_iteration_no_fault addImmState hwf).2.2.2.2.2.2⟩

/-- C18: from a state with the running flag set, one loop iteration on a
fetched 16-bit word leaves the running flag set: the decoded opcode
`instr >> 12` is at most 15 while the trap arm is keyed on `OP_TRAP = 16`, so
the switch never selects `traps` (the only caller of `trapHalt`). -/
theorem C18_loop_never_clears_running (cpu : CPU) (w : Nat) (hrun : cpu.isRunning = true)
    (hfetch : cpu.memory (cpu.registers R_PC) = w) (hw : w < 65536) :
    w >>> 12 ≤ 15 ∧ OP_TRAP = 16 ∧ selectHandler (w >>> 12) ≠ Handler.traps ∧
    ∃ cpu1, iteration cpu = some cpu1 ∧ cpu1.isRunning = true := by
  subst hfetch
  refine ⟨?_, rfl, selectHandler_ne_traps _ hw, ?_⟩
  · rw [Nat.shiftRight_eq_div_pow]
    omega
  · by_cases hop : cpu.memory (cpu.registers R_PC) >>> 12 = 1
    · obtain ⟨v, -, hadd⟩ := add_total (fetch cpu)
      exact ⟨_, (iteration_of_add cpu hop).trans hadd, hrun⟩
    · have hne : selectHandler (fetch cpu).currentOperation ≠ Handler.add := by
        rw [Ne, selectHandler_eq_add]
        exact hop
      have htr : selectHandler (fetch cpu).currentOperation ≠ Handler.traps :=
        selectHandler_ne_traps _ hw
      have hrunning : ∀ h : Handler, h ≠ Handler.add → h ≠ Handler.traps →
          ∃ cpu1, runHandler h (fetch cpu) = some cpu1 ∧ cpu1.isRunning = true := by
        intro h h1 h2
        cases h
        case add => exact absurd rfl h1
        case traps => exact absurd rfl h2
        case branch =>
          obtain ⟨off, -, -, hb⟩ := branch_total (fetch cpu)
          refine ⟨_, hb, ?_⟩
          split <;> exact hrun
        all_goals exact ⟨_, rfl, hrun⟩
      exact hrunning _ hne htr

/-- C18 witness: a running new machine fetching `0xF025` (`TRAP 0x25`). -/
theorem C18_loop_never_clears_running_witness :
    (executeEntry (withMemory NewCPU haltImage)).isRunning = true ∧
    (executeEntry (withMemory NewCPU haltImage)).memory
      ((executeEntry (withMemory NewCPU haltImage)).registers R_PC) = 0xF025 ∧
    0xF025 < 65536 ∧
    (0xF025 >>> 12 ≤ 15 ∧ OP_TRAP = 16 ∧ selectHandler (0xF025 >>> 12) ≠ Handler.traps ∧
      ∃ cpu1, iteration (executeEntry (withMemory NewCPU haltImage)) = some cpu1 ∧
        cpu1.isRunning = true) :=
  ⟨by decide, by decide, by decide,
    C18_loop_never_clears_running (executeEntry (withMemory NewCPU haltImage)) 0xF025
      (by decide) (by decide) (by decide)⟩

/-- C19: starting `Execute` on a state produced by `NewCPU` or `Reset`, with
any 16-bit memory contents `m`, after every number `k` of loop iterations the
machine is still running, the slot `registers[R_COND]` is 0, the slot
`registers[R_PC]` is the entry `pc = 0x3000`, the word the next iteration
fetches is `m[0x3000]`, and only the field `pc` has advanced, to
`(0x3000 + k) mod 2^16`. -/
theorem C19_fixed_fetch_address (cpu : CPU) (m : Nat → Nat) (k : Nat)
    (hm : ∀ a, m a < 65536) :
    (∃ cpu1, loop k (executeEntry (withMemory NewCPU m)) = Outcome.stillRunning cpu1 ∧
      cpu1.registers R_COND = 0 ∧ cpu1.registers R_PC = 0x3000 ∧
      (fetch cpu1).currInstruction = m 0x3000 ∧ cpu1.pc = (0x3000 + k) % 65536) ∧
    (∃ cpu1, loop k (executeEntry (withMemory (Reset cpu) m)) = Outcome.stillRunning cpu1 ∧
      cpu1.registers R_COND = 0 ∧ cpu1.registers R_PC = 0x3000 ∧
      (fetch cpu1).currInstruction = m 0x3000 ∧ cpu1.pc = (0x3000 + k) % 65536) := by
  have key : ∀ s : CPU, s.isRunning = true → s.memory = m → s.registers R_COND = 0 →
      s.registers R_PC = 0x3000 → s.pc = 0x3000 →
      ∃ cpu1, loop k s = Outcome.stillRunning cpu1 ∧
        cpu1.registers R_COND = 0 ∧ cpu1.registers R_PC = 0x3000 ∧
        (fetch cpu1).currInstruction = m 0x3000 ∧ cpu1.pc = (0x3000 + k) % 65536 := by
    intro s hrun hmem hc hpc hp
    obtain ⟨cpu1, hl, -, hmem1, hc1, hpc1, hp1⟩ :=
      loop_fixed m hm k s hrun hmem hc (by omega)
    refine ⟨cpu1, hl, hc1, hpc1.trans hpc, ?_, ?_⟩
    · show cpu1.memory (cpu1.registers R_PC) = m 0x3000
      rw [hmem1, hpc1, hpc]
    · rw [hp1, hp]
  exact ⟨key _ rfl rfl rfl rfl rfl, key _ rfl rfl rfl rfl rfl⟩

/-- C19 witness: the image with `0xF025` at `0x3000`, after 3 iterations. -/
theorem C19_fixed_fetch_address_witness :
    (∀ a, haltImage a < 65536) ∧
    ∃ cpu1, loop 3 (executeEntry (withMemory NewCPU haltImage)) = Outcome.stillRunning cpu1 ∧
      cpu1.registers R_COND = 0 ∧ cpu1.registers R_PC = 0x3000 ∧
      (fetch cpu1).currInstruction = haltImage 0x3000 ∧ cpu1.pc = (0x3000 + 3) % 65536 := by
  have hm : ∀ a, haltImage a < 65536 := by
    intro a
    unfold haltImage
    split <;> decide
  exact ⟨hm, (C19_fixed_fetch_address NewCPU haltImage 3 hm).1⟩

end LC3
